import Mathlib

/-!
Verification of the Mannanethu quotation application core.

This development is a shallow embedding of the quotation data model and its
operations (`validateFields`, `handleCustomerChange`, `handleItemChange`,
`getNextQuoteNo`, `addItem`, `removeItem`, `calculateTotal`, `exportToPDF`,
`handleFileUpload`, `handleSubmit`) as they appear in the application source.
JavaScript numbers are modelled as exact rationals (`ℚ`); `Number.toFixed(2)`
is modelled as round-to-nearest on those rationals.  The external JSON
library pair `JSON.stringify` / `JSON.parse` is modelled as an abstract
lossless correspondence between well-formed metadata blobs and JSON values
(`MetaBlob.wellFormed`), with `MetaBlob.malformed` standing for a metadata
string on which `JSON.parse` throws, carrying the thrown error message.
-/

namespace Mannanethu

/-- Line item of a quotation, mirroring `interface Item` of the source:
`description`, `qty`, `unit`, `rate` and the derived `amount`. -/
structure Item where
  description : String
  qty : ℚ
  unit : String
  rate : ℚ
  amount : ℚ
deriving DecidableEq

/-- Full quotation record, mirroring `interface QuotationData` of the source.
The source field `showTitle?: boolean` is optional, hence `Option Bool`. -/
structure QuotationData where
  customerName : String
  address : String
  mobile : String
  quoteNo : String
  date : String
  validDays : String
  Requirements : String
  items : List Item
  preparedBy : String
  salesMan : String
  showTitle : Option Bool
deriving DecidableEq

/-- Validation error map, mirroring `interface ValidationErrors`: one optional
message per validated field. -/
structure ValidationErrors where
  customerName : Option String
  address : Option String
  mobile : Option String
  quoteNo : Option String
deriving DecidableEq

/-- Severity of a snackbar notification (`'success' | 'error'`). -/
inductive Severity where
  | success
  | error
deriving DecidableEq

/-- Snackbar notification state; the source field `open` is spelled `isOpen`
here because `open` is a Lean keyword. -/
structure Snackbar where
  isOpen : Bool
  message : String
  severity : Severity
deriving DecidableEq

/-- Aggregate component state: the pieces of React `useState` that the
verified handlers read and write (`quotationData`, `newItem`, `customUnit`,
`baseQuoteNo`, `errors`, `snackbar`). -/
structure AppState where
  quotationData : QuotationData
  newItem : Item
  customUnit : String
  baseQuoteNo : String
  errors : ValidationErrors
  snackbar : Snackbar
deriving DecidableEq

/-- Scratch line item as initialised by `useState<Item>` in the source:
empty description and unit, zero qty, rate and amount. -/
def emptyItem : Item :=
  { description := "", qty := 0, unit := "", rate := 0, amount := 0 }

/-- Fresh-session quotation as initialised by `useState<QuotationData>` in the
source: empty strings, today's date, `"7"` validity days, no items, title
shown.  `today` abstracts `new Date().toLocaleDateString('en-GB')`. -/
def freshQuotation (today : String) : QuotationData :=
  { customerName := ""
    address := ""
    mobile := ""
    quoteNo := ""
    date := today
    validDays := "7"
    Requirements := ""
    items := []
    preparedBy := ""
    salesMan := ""
    showTitle := some true }

/-- Empty validation-error map (`{}` in the source). -/
def emptyErrors : ValidationErrors :=
  { customerName := none, address := none, mobile := none, quoteNo := none }

/-- Rounding of `Number(x.toFixed(2))`, modelled as round-to-nearest at two
decimal places on exact rationals. -/
def round2 (x : ℚ) : ℚ :=
  ((⌊x * 100 + 1 / 2⌋ : ℤ) : ℚ) / 100

/-- Whitespace trim of `String.prototype.trim`: drop whitespace characters
from both ends. -/
def jsTrim (s : String) : String :=
  String.mk (((s.data.dropWhile Char.isWhitespace).reverse.dropWhile
    Char.isWhitespace).reverse)

/-- Test of the source regex `/^\d{10}$/`: exactly ten ASCII digits. -/
def isTenDigits (s : String) : Bool :=
  s.data.length == 10 && s.data.all Char.isDigit

/-- Embedding of `validateFields`, the part that builds the `newErrors` map:
required non-empty (after trim) `customerName`, `address`, `quoteNo`, and a
trimmed ten-digit `mobile`. -/
def validateFields (q : QuotationData) : ValidationErrors :=
  { customerName :=
      if jsTrim q.customerName = "" then some "Customer name is required" else none
    address :=
      if jsTrim q.address = "" then some "Address is required" else none
    mobile :=
      if jsTrim q.mobile = "" then some "Mobile number is required"
      else if !isTenDigits (jsTrim q.mobile) then
        some "Please enter a valid 10-digit mobile number"
      else none
    quoteNo :=
      if jsTrim q.quoteNo = "" then some "Quote number is required" else none }

/-- Number of populated entries of an error map
(`Object.keys(newErrors).length`). -/
def errCount (e : ValidationErrors) : Nat :=
  (if e.customerName.isSome then 1 else 0) +
  (if e.address.isSome then 1 else 0) +
  (if e.mobile.isSome then 1 else 0) +
  (if e.quoteNo.isSome then 1 else 0)

/-- Boolean returned by `validateFields`:
`Object.keys(newErrors).length === 0`. -/
def validatePasses (q : QuotationData) : Bool :=
  errCount (validateFields q) == 0

/-- Scalar fields of `QuotationData` editable through `handleCustomerChange`
(every text field wired to it in the form). -/
inductive QField where
  | customerName
  | address
  | mobile
  | quoteNo
  | date
  | validDays
  | Requirements
  | preparedBy
  | salesMan
deriving DecidableEq

/-- Write of a single scalar field, `{ ...quotationData, [field]: value }`. -/
def setQField (q : QuotationData) (f : QField) (v : String) : QuotationData :=
  match f with
  | .customerName => { q with customerName := v }
  | .address => { q with address := v }
  | .mobile => { q with mobile := v }
  | .quoteNo => { q with quoteNo := v }
  | .date => { q with date := v }
  | .validDays => { q with validDays := v }
  | .Requirements => { q with Requirements := v }
  | .preparedBy => { q with preparedBy := v }
  | .salesMan => { q with salesMan := v }

/-- Keys of the `ValidationErrors` map. -/
inductive EField where
  | customerName
  | address
  | mobile
  | quoteNo
deriving DecidableEq

/-- Lookup `errors[k]`. -/
def getErr (e : ValidationErrors) (k : EField) : Option String :=
  match k with
  | .customerName => e.customerName
  | .address => e.address
  | .mobile => e.mobile
  | .quoteNo => e.quoteNo

/-- Write `{ ...errors, [k]: undefined }`. -/
def clearErr (e : ValidationErrors) (k : EField) : ValidationErrors :=
  match k with
  | .customerName => { e with customerName := none }
  | .address => { e with address := none }
  | .mobile => { e with mobile := none }
  | .quoteNo => { e with quoteNo := none }

/-- Error-map key of a quotation field, mirroring the source cast
`field as keyof ValidationErrors` (fields without an error slot yield
`none`). -/
def errKeyOf (f : QField) : Option EField :=
  match f with
  | .customerName => some .customerName
  | .address => some .address
  | .mobile => some .mobile
  | .quoteNo => some .quoteNo
  | _ => none

/-- JavaScript truthiness of an optional error message
(`if (errors[field])`): present and non-empty. -/
def errTruthy (m : Option String) : Bool :=
  match m with
  | some s => !(s == "")
  | none => false

/-- Embedding of `handleCustomerChange`: record the base quote number on the
first `quoteNo` edit, write the field, and clear the field's existing
validation error. -/
def handleCustomerChange (f : QField) (v : String) (s : AppState) : AppState :=
  let s1 :=
    if f = QField.quoteNo ∧ s.baseQuoteNo = "" then
      { s with baseQuoteNo := v }
    else s
  let s2 := { s1 with quotationData := setQField s1.quotationData f v }
  match errKeyOf f with
  | none => s2
  | some k =>
    if errTruthy (getErr s2.errors k) then
      { s2 with errors := clearErr s2.errors k }
    else s2

/-- Edits the item-entry form can produce through `handleItemChange`: the
source wires `description`, `qty`, `unit` and `rate` inputs to it (the
`amount` field is read-only and has no change handler). -/
inductive ItemEdit where
  | description (v : String)
  | qty (v : ℚ)
  | unit (v : String)
  | rate (v : ℚ)
deriving DecidableEq

/-- Embedding of `handleItemChange`: write the edited field, recompute
`amount = Number((qty * rate).toFixed(2))` when `qty` or `rate` changed, and
clear the pending custom unit when `unit` changed. -/
def handleItemChange (e : ItemEdit) (s : AppState) : AppState :=
  match e with
  | .description v => { s with newItem := { s.newItem with description := v } }
  | .qty v =>
    let updated := { s.newItem with qty := v }
    { s with newItem := { updated with amount := round2 (updated.qty * updated.rate) } }
  | .unit v =>
    { s with newItem := { s.newItem with unit := v }, customUnit := "" }
  | .rate v =>
    let updated := { s.newItem with rate := v }
    { s with newItem := { updated with amount := round2 (updated.qty * updated.rate) } }

/-- Maximal trailing run of decimal digits of a string, as matched by the
source regex `/(\d+)$/`. -/
def trailingDigits (s : String) : List Char :=
  (s.data.reverse.takeWhile Char.isDigit).reverse

/-- Value of `parseInt` on a string of decimal digits. -/
def digitsToNat (cs : List Char) : Nat :=
  cs.foldl (fun n c => n * 10 + (c.toNat - 48)) 0

/-- Embedding of `getNextQuoteNo`: empty result when no base quote number is
recorded; otherwise increment the trailing digit run of the current quote
number (falling back to the base when the current one is empty), keeping the
non-digit part in front; with no trailing digits, append `"-1"`. -/
def getNextQuoteNo (baseQuoteNo currentQuoteNo : String) : String :=
  if baseQuoteNo = "" then ""
  else
    let lastQuoteNo := if currentQuoteNo = "" then baseQuoteNo else currentQuoteNo
    let ds := trailingDigits lastQuoteNo
    if ds.isEmpty then
      if lastQuoteNo = "" then "1" else lastQuoteNo ++ "-1"
    else
      let pre := String.mk (lastQuoteNo.data.take (lastQuoteNo.length - ds.length))
      pre ++ toString (digitsToNat ds + 1)

/-- Embedding of `addItem`: reject (error snackbar, no other change) when the
description is empty or qty or rate is zero; otherwise append the item with
the custom unit substituted for the sentinel `"custom"`, and reset the
scratch item and custom unit. -/
def addItem (s : AppState) : AppState :=
  if s.newItem.description = "" ∨ s.newItem.qty = 0 ∨ s.newItem.rate = 0 then
    { s with snackbar :=
        { isOpen := true
          message := "Please fill in all required item fields"
          severity := .error } }
  else
    let itemToAdd :=
      { s.newItem with
          unit := if s.newItem.unit = "custom" then s.customUnit else s.newItem.unit }
    { s with
        quotationData :=
          { s.quotationData with items := s.quotationData.items ++ [itemToAdd] }
        newItem := { description := "", qty := 0, unit := "", rate := 0, amount := 0 }
        customUnit := "" }

/-- Embedding of `removeItem`:
`items.filter((_, i) => i !== index)`. -/
def removeItem (q : QuotationData) (idx : Nat) : QuotationData :=
  { q with items := ((q.items.enum.filter (fun p => p.1 ≠ idx)).map Prod.snd) }

/-- Embedding of `calculateTotal`:
`items.reduce((sum, item) => sum + item.amount, 0)`. -/
def calculateTotal (q : QuotationData) : ℚ :=
  q.items.foldl (fun sum item => sum + item.amount) 0

/-- JSON values, the image of `JSON.parse` on well-formed metadata. -/
inductive Json where
  | str (s : String)
  | num (q : ℚ)
  | bool (b : Bool)
  | null
  | arr (elems : List Json)
  | obj (fields : List (String × Json))

/-- First binding of a key in a JSON object's field list. -/
def lookupField (fields : List (String × Json)) (k : String) : Option Json :=
  match fields with
  | [] => none
  | (k', v) :: rest => if k' = k then some v else lookupField rest k

/-- JavaScript property access `parsed[k]`: defined on objects, `undefined`
(that is, `none`) on every other JSON value. -/
def getField (j : Json) (k : String) : Option Json :=
  match j with
  | .obj fields => lookupField fields k
  | _ => none

/-- JSON encoding of a line item, as produced by `JSON.stringify` on an
element of `quotationData.items`. -/
def encodeItem (i : Item) : Json :=
  .obj [("description", .str i.description), ("qty", .num i.qty),
        ("unit", .str i.unit), ("rate", .num i.rate), ("amount", .num i.amount)]

/-- The record `dataToSave` built by `exportToPDF`:
`{ ...quotationData, showTitle: quotationData.showTitle ?? true }`. -/
def dataToSave (q : QuotationData) : QuotationData :=
  { q with showTitle := some (q.showTitle.getD true) }

/-- JSON encoding of the quotation record, as produced by `JSON.stringify`
(a key whose value is `undefined` is omitted, hence the optional
`showTitle` pair). -/
def encodeQuotation (q : QuotationData) : Json :=
  .obj ([("customerName", .str q.customerName), ("address", .str q.address),
         ("mobile", .str q.mobile), ("quoteNo", .str q.quoteNo),
         ("date", .str q.date), ("validDays", .str q.validDays),
         ("Requirements", .str q.Requirements),
         ("items", .arr (q.items.map encodeItem)),
         ("preparedBy", .str q.preparedBy), ("salesMan", .str q.salesMan)] ++
        (match q.showTitle with
         | some b => [("showTitle", .bool b)]
         | none => []))

/-- Reading of one loaded string field with the JS defaulting idiom
`loadedData.k || d`: a missing, non-string or empty value falls back to the
default.  (The import code never type-checks the parsed blob; a present
value of a non-string JSON type is treated here as absent, a case no
export-produced blob ever contains.) -/
def loadStr (j : Json) (k : String) (d : String) : String :=
  match getField j k with
  | some (.str s) => if s = "" then d else s
  | _ => d

/-- Typed reading of one JSON line item (shape produced by `encodeItem`;
any other shape yields `none`). -/
def decodeItem (j : Json) : Option Item :=
  match getField j "description", getField j "qty", getField j "unit",
        getField j "rate", getField j "amount" with
  | some (.str d), some (.num q), some (.str u), some (.num r), some (.num a) =>
    some { description := d, qty := q, unit := u, rate := r, amount := a }
  | _, _, _, _, _ => none

/-- Typed reading of a list of JSON line items: every element must decode. -/
def decodeItems (l : List Json) : Option (List Item) :=
  match l with
  | [] => some []
  | j :: rest =>
    match decodeItem j, decodeItems rest with
    | some i, some tl => some (i :: tl)
    | _, _ => none

/-- Reading of `loadedData.items || []`: a missing items field (or one not
shaped like an item array) yields the empty list. -/
def loadItems (j : Json) : List Item :=
  match getField j "items" with
  | some (.arr elems) =>
    match decodeItems elems with
    | some l => l
    | none => []
  | _ => []

/-- Reading of `loadedData.showTitle ?? true`: absent or null yields
`true`. -/
def loadShowTitle (j : Json) : Bool :=
  match getField j "showTitle" with
  | some (.bool b) => b
  | _ => true

/-- Quotation reconstructed by `handleFileUpload` from the parsed metadata,
mirroring its field-by-field defaulting (`|| ''`, `|| today`, `|| '7'`,
`|| []`, `?? true`). -/
def decodeQuotation (today : String) (j : Json) : QuotationData :=
  { customerName := loadStr j "customerName" ""
    address := loadStr j "address" ""
    mobile := loadStr j "mobile" ""
    quoteNo := loadStr j "quoteNo" ""
    date := loadStr j "date" today
    validDays := loadStr j "validDays" "7"
    Requirements := loadStr j "Requirements" ""
    items := loadItems j
    preparedBy := loadStr j "preparedBy" ""
    salesMan := loadStr j "salesMan" ""
    showTitle := some (loadShowTitle j) }

/-- Content of a PDF subject-metadata string: either a well-formed
serialisation of a JSON value (what `JSON.stringify` produced and
`JSON.parse` recovers) or a malformed string on which `JSON.parse` throws
with the given error message. -/
inductive MetaBlob where
  | wellFormed (j : Json)
  | malformed (errMsg : String)

/-- Behaviour of `JSON.parse` on a metadata blob. -/
def parseMeta (b : MetaBlob) : Except String Json :=
  match b with
  | .wellFormed j => .ok j
  | .malformed e => .error e

/-- The parts of an exported PDF document that the import path reads: the
title metadata and the optional subject-metadata blob. -/
structure PdfDoc where
  title : String
  subject : Option MetaBlob

/-- Embedding of `exportToPDF`, restricted to the document it produces:
`none` when validation fails (the export aborts with an error snackbar and
no document); otherwise a document whose title includes the quote number
and whose subject carries `JSON.stringify(dataToSave)`. -/
def exportToPDF (q : QuotationData) : Option PdfDoc :=
  if validatePasses q then
    some { title := "Quotation " ++ q.quoteNo
           subject := some (.wellFormed (encodeQuotation (dataToSave q))) }
  else none

/-- Embedding of `handleFileUpload`: no file selected leaves the state as is;
a document without subject metadata or with a malformed blob only raises an
error snackbar; a well-formed blob replaces the quotation with the decoded
record and sets the base quote number to the loaded quote number when one is
present, clearing it otherwise. -/
def handleFileUpload (today : String) (s : AppState) (file : Option PdfDoc) :
    AppState :=
  match file with
  | none => s
  | some doc =>
    match doc.subject with
    | none =>
      { s with snackbar :=
          { isOpen := true
            message := "No quotation data found in the PDF metadata"
            severity := .error } }
    | some blob =>
      match parseMeta blob with
      | .error e =>
        { s with snackbar :=
            { isOpen := true
              message := "Error loading PDF: " ++ e
              severity := .error } }
      | .ok j =>
        let loaded := decodeQuotation today j
        { s with
            quotationData := loaded
            baseQuoteNo := if loaded.quoteNo = "" then "" else loaded.quoteNo
            snackbar :=
              { isOpen := true
                message := "PDF loaded successfully"
                severity := .success } }

/-- Embedding of `handleSubmit`: when validation fails, record the errors and
raise an error snackbar; when it passes, reset the quotation to the literal
fresh record of the source with the incremented quote number, set the base
quote number to that same value, and clear errors and the item-entry scratch
state.  (The fire-and-forget `exportToPDF()` call mutates no model state
besides its own snackbar and is not part of this synchronous transition.) -/
def handleSubmit (today : String) (s : AppState) : AppState :=
  if validatePasses s.quotationData then
    let nextQuoteNo := getNextQuoteNo s.baseQuoteNo s.quotationData.quoteNo
    { s with
        quotationData :=
          { customerName := ""
            address := ""
            mobile := ""
            quoteNo := nextQuoteNo
            date := today
            validDays := "7"
            Requirements := ""
            items := []
            preparedBy := ""
            salesMan := ""
            showTitle := some true }
        baseQuoteNo := nextQuoteNo
        errors := { customerName := none, address := none, mobile := none, quoteNo := none }
        newItem := { description := "", qty := 0, unit := "", rate := 0, amount := 0 }
        customUnit := "" }
  else
    { s with
        errors := validateFields s.quotationData
        snackbar :=
          { isOpen := true
            message := "Please fill in all required fields"
            severity := .error } }

/-- State of a freshly loaded session: fresh quotation, empty scratch item,
no custom unit, no base quote number, no errors, closed snackbar. -/
def initialState (today : String) : AppState :=
  { quotationData := freshQuotation today
    newItem := emptyItem
    customUnit := ""
    baseQuoteNo := ""
    errors := emptyErrors
    snackbar := { isOpen := false, message := "", severity := .success } }

/-- Validated quotation with an empty date field (validation never inspects
the date). -/
def qEmptyDate : QuotationData :=
  { customerName := "A", address := "B", mobile := "1234567890", quoteNo := "Q1",
    date := "", validDays := "7", Requirements := "", items := [],
    preparedBy := "", salesMan := "", showTitle := some true }

/-- The quotation of the spec's round-trip test case: customer `"Acme"` and
one line item `Pipe`, 3 MTR at rate 100 with amount 300.00. -/
def acmeQuotation : QuotationData :=
  { customerName := "Acme", address := "Street 1", mobile := "1234567890",
    quoteNo := "Q1", date := "11/10/2026", validDays := "7", Requirements := "",
    items := [{ description := "Pipe", qty := 3, unit := "MTR", rate := 100,
                amount := 300 }],
    preparedBy := "", salesMan := "", showTitle := some true }

/-- The PDF document `exportToPDF` produces for `acmeQuotation`. -/
def acmeDoc : PdfDoc :=
  { title := "Quotation Q1"
    subject := some (.wellFormed (encodeQuotation (dataToSave acmeQuotation))) }

lemma takeWhile_eq_nil_of_head (p : Char → Bool) (l : List Char)
    (h : ∀ c, l.head? = some c → p c = false) : l.takeWhile p = [] := by
  cases l with
  | nil => rfl
  | cons c rest => simp [List.takeWhile_cons, h c rfl]

lemma trailingDigits_append (pre : String) (ds : List Char)
    (hds : ∀ c ∈ ds, c.isDigit = true)
    (hpre : ∀ c, pre.data.getLast? = some c → c.isDigit = false) :
    trailingDigits (pre ++ String.mk ds) = ds := by
  unfold trailingDigits
  have hdata : (pre ++ String.mk ds).data = pre.data ++ ds := rfl
  rw [hdata, List.reverse_append]
  rw [List.takeWhile_append_of_pos (by simpa using hds)]
  rw [takeWhile_eq_nil_of_head Char.isDigit pre.data.reverse
    (fun c hc => hpre c (by rwa [List.head?_reverse] at hc))]
  simp

lemma getNextQuoteNo_incr (base cur pre : String) (ds : List Char)
    (hbase : base ≠ "") (hcur : cur = pre ++ String.mk ds) (hds : ds ≠ [])
    (hdig : ∀ c ∈ ds, c.isDigit = true)
    (hpre : ∀ c, pre.data.getLast? = some c → c.isDigit = false) :
    getNextQuoteNo base cur = pre ++ toString (digitsToNat ds + 1) := by
  have hdata : cur.data = pre.data ++ ds := by rw [hcur]; rfl
  have hcurne : cur ≠ "" := by
    intro h
    rw [h] at hdata
    exact hds (List.append_eq_nil.mp hdata.symm).2
  have htd : trailingDigits cur = ds := by
    rw [hcur]; exact trailingDigits_append pre ds hdig hpre
  have hlen : cur.length - ds.length = pre.data.length := by
    show cur.data.length - ds.length = pre.data.length
    rw [hdata, List.length_append, Nat.add_sub_cancel]
  have htake : cur.data.take (cur.length - ds.length) = pre.data := by
    rw [hlen, hdata, List.take_left]
  rw [getNextQuoteNo, if_neg hbase]
  simp only [if_neg hcurne, htd, htake]
  rw [List.isEmpty_eq_false.mpr hds]
  rfl

lemma getNextQuoteNo_fallback (base cur : String)
    (hbase : base ≠ "") (hcur : cur ≠ "")
    (hlast : ∀ c, cur.data.getLast? = some c → c.isDigit = false) :
    getNextQuoteNo base cur = cur ++ "-1" := by
  have htd : trailingDigits cur = [] := by
    unfold trailingDigits
    rw [takeWhile_eq_nil_of_head Char.isDigit cur.data.reverse
      (fun c hc => hlast c (by rwa [List.head?_reverse] at hc))]
    rfl
  rw [getNextQuoteNo, if_neg hbase]
  simp only [if_neg hcur, htd]
  simp [hcur]

/-- C2 (amended): with a non-empty recorded base quote number,
`getNextQuoteNo` splits the current quote number into a prefix that does not
end in a digit and a maximal trailing digit run, parses the run and
increments it by one, and re-concatenates — the parse drops leading zeros,
so `"QT-2024-007"` yields `"QT-2024-8"` (not `"QT-2024-008"`), while `"42"`
yields `"43"`; with no trailing digit run a literal `"-1"` suffix is
appended, so `"ABC"` yields `"ABC-1"`. -/
theorem getNextQuoteNo_amended :
    (∀ (base cur pre : String) (ds : List Char),
        base ≠ "" → cur = pre ++ String.mk ds → ds ≠ [] →
        (∀ c ∈ ds, c.isDigit = true) →
        (∀ c, pre.data.getLast? = some c → c.isDigit = false) →
        getNextQuoteNo base cur = pre ++ toString (digitsToNat ds + 1))
  ∧ (∀ base cur : String, base ≠ "" → cur ≠ "" →
        (∀ c, cur.data.getLast? = some c → c.isDigit = false) →
        getNextQuoteNo base cur = cur ++ "-1")
  ∧ getNextQuoteNo "QT-2024-007" "QT-2024-007" = "QT-2024-8"
  ∧ getNextQuoteNo "42" "42" = "43"
  ∧ getNextQuoteNo "ABC" "ABC" = "ABC-1" := by
  refine ⟨?_, ?_, rfl, rfl, rfl⟩
  · intro base cur pre ds h1 h2 h3 h4 h5
    exact getNextQuoteNo_incr base cur pre ds h1 h2 h3 h4 h5
  · intro base cur h1 h2 h3
    exact getNextQuoteNo_fallback base cur h1 h2 h3

/-- Witness for C2: the general rule applied to the concrete quote numbers
`"QT-2024-007"` (prefix `"QT-2024-"`, digit run `007`). -/
theorem getNextQuoteNo_amended_witness :
    getNextQuoteNo "QT-2024-007" "QT-2024-007" =
      "QT-2024-" ++ toString (digitsToNat ['0', '0', '7'] + 1) :=
  getNextQuoteNo_amended.1 "QT-2024-007" "QT-2024-007" "QT-2024-"
    ['0', '0', '7'] (by decide) rfl (by decide) (by decide)
    (by intro c hc; simp at hc; subst hc; decide)

/-- C2 counterexample: the code yields `"QT-2024-8"` for `"QT-2024-007"`,
not the `"QT-2024-008"` the claim states. -/
theorem getNextQuoteNo_counterexample :
    getNextQuoteNo "QT-2024-007" "QT-2024-007" = "QT-2024-8" ∧
    getNextQuoteNo "QT-2024-007" "QT-2024-007" ≠ "QT-2024-008" := by
  exact ⟨rfl, by decide⟩

/-- C10: with no recorded base quote number (the empty string),
`getNextQuoteNo` returns the empty string whatever the current quote number
is, and a submit that passes validation in such a state resets the form with
an empty quote number and an empty base quote number. -/
theorem getNextQuoteNo_empty_base (base cur today : String) (s : AppState)
    (hbase : base = "") :
    getNextQuoteNo base cur = "" ∧
    (s.baseQuoteNo = "" → validatePasses s.quotationData = true →
      (handleSubmit today s).quotationData.quoteNo = "" ∧
      (handleSubmit today s).baseQuoteNo = "") := by
  constructor
  · rw [getNextQuoteNo, if_pos hbase]
  · intro hs hv
    simp [handleSubmit, hv, getNextQuoteNo, hs]

/-- Session state holding the validated quotation `qEmptyDate` with no base
quote number recorded. -/
def noBaseState : AppState :=
  { initialState "01/01/2026" with quotationData := qEmptyDate }

/-- Witness for C10: a validated state whose base quote number was never
recorded submits into a form with an empty quote number. -/
theorem getNextQuoteNo_empty_base_witness :
    (handleSubmit "02/01/2026" noBaseState).quotationData.quoteNo = "" ∧
    getNextQuoteNo "" "QT-2024-007" = "" := by
  have h := getNextQuoteNo_empty_base "" "QT-2024-007" "02/01/2026" noBaseState rfl
  exact ⟨(h.2 rfl (by decide)).1, h.1⟩

/-- C3: every `qty` or `rate` edit of the scratch line item recomputes its
`amount` as the product of the new quantity and rate rounded to two
decimals, while `description` and `unit` edits leave `amount` untouched (the
read-only amount field has no handler, so `amount` is never written
directly). -/
theorem handleItemChange_amount (s : AppState) (e : ItemEdit) :
    ((∃ v, e = .qty v) ∨ (∃ v, e = .rate v) →
      (handleItemChange e s).newItem.amount =
        round2 ((handleItemChange e s).newItem.qty *
          (handleItemChange e s).newItem.rate))
  ∧ ((∃ v, e = .description v) ∨ (∃ v, e = .unit v) →
      (handleItemChange e s).newItem.amount = s.newItem.amount) := by
  constructor
  · rintro (⟨v, rfl⟩ | ⟨v, rfl⟩) <;> simp [handleItemChange]
  · rintro (⟨v, rfl⟩ | ⟨v, rfl⟩) <;> simp [handleItemChange]

/-- Session state whose scratch item has rate 100 entered. -/
def rate100State : AppState :=
  { initialState "01/01/2026" with newItem := { emptyItem with rate := 100 } }

/-- Witness for C3: editing the quantity to 3 with rate 100 yields the
derived amount 300. -/
theorem handleItemChange_amount_witness :
    (handleItemChange (.qty 3) rate100State).newItem.amount = 300 := by
  have h := (handleItemChange_amount rate100State (.qty 3)).1 (Or.inl ⟨3, rfl⟩)
  rw [h]
  show round2 (3 * 100) = 300
  unfold round2
  norm_num [Int.floor_eq_iff]

lemma foldl_add_amount (l : List Item) (a : ℚ) :
    l.foldl (fun s i => s + i.amount) a = a + (l.map Item.amount).sum := by
  induction l generalizing a with
  | nil => simp
  | cons i t ih => simp [ih, add_assoc]

lemma enumFrom_filter_lt {α : Type} (l : List α) (k m : Nat) (h : m < k) :
    (List.enumFrom k l).filter (fun p => p.1 ≠ m) = List.enumFrom k l := by
  induction l generalizing k with
  | nil => rfl
  | cons a t ih =>
    simp only [List.enumFrom, List.filter_cons]
    rw [ih (k + 1) (Nat.lt_succ_of_lt h)]
    simp [Nat.ne_of_gt h]

lemma enumFrom_filter_remove {α : Type} (l : List α) (k idx : Nat)
    (h : idx < l.length) :
    ((List.enumFrom k l).filter (fun p => p.1 ≠ (k + idx))).map Prod.snd =
      l.take idx ++ l.drop (idx + 1) := by
  induction l generalizing k idx with
  | nil => simp at h
  | cons a t ih =>
    cases idx with
    | zero =>
      simp only [List.enumFrom, List.filter_cons, Nat.add_zero]
      rw [enumFrom_filter_lt t (k + 1) k (Nat.lt_succ_self k)]
      simp [List.enumFrom_map_snd]
    | succ j =>
      have hj : j < t.length := by simpa using Nat.lt_of_succ_lt_succ h
      have harith : k + (j + 1) = (k + 1) + j := by omega
      have ht := ih (k + 1) j hj
      have hne : ¬ (k = k + 1 + j) := by omega
      simp only [List.enumFrom, List.filter_cons, harith]
      simp [hne, List.take_succ_cons, List.drop_succ_cons]
      simpa using ht

lemma enum_filter_remove {α : Type} (l : List α) (idx : Nat)
    (h : idx < l.length) :
    ((l.enum.filter (fun p => p.1 ≠ idx)).map Prod.snd) =
      l.take idx ++ l.drop (idx + 1) := by
  have := enumFrom_filter_remove l 0 idx h
  simpa using this

/-- C9: `calculateTotal` is the sum of the amounts of the current items,
recomputed from the state alone: an empty item list yields 0, appending an
item raises the total by exactly that item's amount, and `removeItem` at a
valid index lowers it by exactly the removed item's amount. -/
theorem calculateTotal_spec :
    (∀ q : QuotationData, calculateTotal q = (q.items.map Item.amount).sum)
  ∧ (∀ q : QuotationData, q.items = [] → calculateTotal q = 0)
  ∧ (∀ (q : QuotationData) (i : Item),
      calculateTotal { q with items := q.items ++ [i] } =
        calculateTotal q + i.amount)
  ∧ (∀ (q : QuotationData) (idx : Nat) (h : idx < q.items.length),
      calculateTotal (removeItem q idx) =
        calculateTotal q - (q.items[idx]).amount) := by
  refine ⟨?_, ?_, ?_, ?_⟩
  · intro q
    unfold calculateTotal
    rw [foldl_add_amount]
    simp
  · intro q h
    unfold calculateTotal
    rw [h]
    rfl
  · intro q i
    unfold calculateTotal
    simp only
    rw [foldl_add_amount, foldl_add_amount]
    simp
  · intro q idx h
    unfold calculateTotal removeItem
    simp only
    rw [foldl_add_amount, foldl_add_amount, enum_filter_remove q.items idx h]
    have hsplit : q.items.take idx ++ q.items.drop idx = q.items :=
      List.take_append_drop idx q.items
    have hdrop : q.items.drop idx = q.items[idx] :: q.items.drop (idx + 1) :=
      List.drop_eq_getElem_cons h
    rw [List.map_append, List.sum_append]
    have hsum : (q.items.map Item.amount).sum =
        ((q.items.take idx).map Item.amount).sum +
          ((q.items[idx]).amount + ((q.items.drop (idx + 1)).map Item.amount).sum) := by
      conv_lhs => rw [← hsplit, hdrop]
      rw [List.map_append, List.sum_append, List.map_cons, List.sum_cons]
    rw [hsum]
    ring

/-- Witness for C9: removing the only item of the Acme quotation lowers the
total from 300 to 0, and the empty fresh quotation totals 0. -/
theorem calculateTotal_spec_witness :
    calculateTotal (removeItem acmeQuotation 0) = calculateTotal acmeQuotation - 300 ∧
    calculateTotal (freshQuotation "01/01/2026") = 0 := by
  constructor
  · have h := calculateTotal_spec.2.2.2 acmeQuotation 0 (by decide)
    rw [h]
    rfl
  · exact calculateTotal_spec.2.1 (freshQuotation "01/01/2026") rfl

/-- Quotation of the spec's validation test case: empty customer name,
address and quote number, and the five-digit mobile `"12345"`. -/
def qInvalid : QuotationData :=
  { customerName := "", address := "", mobile := "12345", quoteNo := "",
    date := "01/01/2026", validDays := "7", Requirements := "", items := [],
    preparedBy := "", salesMan := "", showTitle := some true }

/-- Session state holding `qInvalid` together with the error map a
validation pass over it produced. -/
def errState : AppState :=
  { initialState "01/01/2026" with
    quotationData := qInvalid
    errors := validateFields qInvalid }

lemma errCount_eq_zero (e : ValidationErrors) : errCount e = 0 ↔ e = emptyErrors := by
  obtain ⟨c, a, m, q⟩ := e
  cases c <;> cases a <;> cases m <;> cases q <;> simp [errCount, emptyErrors]

/-- C4: validation reports every violation in one pass — the quotation with
empty customer name, empty address, mobile `"12345"` and empty quote number
produces exactly four errors, one per field; a subsequent edit of one field
clears only that field's error and leaves every other entry of the error map
in place; and validation passes exactly when the computed error map is
empty. -/
theorem validateFields_full_report :
    (errCount (validateFields qInvalid) = 4 ∧
      (validateFields qInvalid).customerName = some "Customer name is required" ∧
      (validateFields qInvalid).address = some "Address is required" ∧
      (validateFields qInvalid).mobile =
        some "Please enter a valid 10-digit mobile number" ∧
      (validateFields qInvalid).quoteNo = some "Quote number is required")
  ∧ (∀ (s : AppState) (f : QField) (v : String) (k : EField),
      errKeyOf f ≠ some k →
      getErr (handleCustomerChange f v s).errors k = getErr s.errors k)
  ∧ (∀ (s : AppState) (f : QField) (v : String) (k : EField),
      errKeyOf f = some k → errTruthy (getErr s.errors k) = true →
      getErr (handleCustomerChange f v s).errors k = none)
  ∧ (∀ q : QuotationData, validatePasses q = true ↔ validateFields q = emptyErrors) := by
  refine ⟨⟨rfl, rfl, rfl, rfl, rfl⟩, ?_, ?_, ?_⟩
  · intro s f v k h
    cases f <;> cases k <;>
      simp_all [handleCustomerChange, errKeyOf, getErr, clearErr] <;>
      (try split) <;> (try simp [getErr, clearErr]) <;> (try split) <;> (try rfl)
  · intro s f v k h1 h2
    cases f <;> cases k <;>
      simp_all [handleCustomerChange, errKeyOf, getErr, clearErr, errTruthy] <;>
      (try split) <;> (try simp_all [getErr, clearErr])
  · intro q
    simp [validatePasses, errCount_eq_zero]

/-- Witness for C4: on the four-error state, supplying the valid mobile
`"1234567890"` clears the mobile error and keeps the customer-name error. -/
theorem validateFields_full_report_witness :
    getErr (handleCustomerChange .mobile "1234567890" errState).errors .mobile =
      none ∧
    getErr (handleCustomerChange .mobile "1234567890" errState).errors
      .customerName = some "Customer name is required" := by
  constructor
  · exact validateFields_full_report.2.2.1 errState .mobile "1234567890"
      .mobile rfl (by decide)
  · rw [validateFields_full_report.2.1 errState .mobile "1234567890"
      .customerName (by decide)]
    rfl

/-- C5: `addItem` rejects a scratch item with an empty description or a zero
quantity or rate, changing nothing but the snackbar, which surfaces the
item-field error; a complete scratch item is appended to the item list with
the custom unit text substituted for the `"custom"` sentinel, and the
scratch item and pending custom unit are reset. -/
theorem addItem_spec (s : AppState) :
    (s.newItem.description = "" ∨ s.newItem.qty = 0 ∨ s.newItem.rate = 0 →
      (addItem s).quotationData = s.quotationData ∧
      (addItem s).newItem = s.newItem ∧
      (addItem s).customUnit = s.customUnit ∧
      (addItem s).baseQuoteNo = s.baseQuoteNo ∧
      (addItem s).errors = s.errors ∧
      (addItem s).snackbar =
        { isOpen := true
          message := "Please fill in all required item fields"
          severity := .error })
  ∧ (s.newItem.description ≠ "" → s.newItem.qty ≠ 0 → s.newItem.rate ≠ 0 →
      (addItem s).quotationData.items =
        s.quotationData.items ++
          [{ s.newItem with
              unit := if s.newItem.unit = "custom" then s.customUnit
                      else s.newItem.unit }] ∧
      (addItem s).newItem = emptyItem ∧
      (addItem s).customUnit = "") := by
  constructor
  · intro h
    unfold addItem
    rw [if_pos h]
    exact ⟨rfl, rfl, rfl, rfl, rfl, rfl⟩
  · intro h1 h2 h3
    unfold addItem
    rw [if_neg (by simp [h1, h2, h3])]
    exact ⟨rfl, rfl, rfl⟩

/-- Session state whose scratch item is the complete Pipe entry with the
`"custom"` unit sentinel and pending custom unit text `"MTR"`. -/
def customScratchState : AppState :=
  { initialState "01/01/2026" with
    newItem := { description := "Pipe", qty := 3, unit := "custom", rate := 100,
                 amount := 300 }
    customUnit := "MTR" }

/-- Witness for C5: the complete Pipe entry is appended with unit `"MTR"`
substituted and the scratch state reset, while the empty fresh scratch item
is rejected with no change to the quotation. -/
theorem addItem_spec_witness :
    (addItem customScratchState).quotationData.items =
      [{ description := "Pipe", qty := 3, unit := "MTR", rate := 100,
         amount := 300 }] ∧
    (addItem customScratchState).newItem = emptyItem ∧
    (addItem customScratchState).customUnit = "" ∧
    (addItem (initialState "01/01/2026")).quotationData =
      (initialState "01/01/2026").quotationData ∧
    (addItem (initialState "01/01/2026")).snackbar.isOpen = true := by
  have hacc := (addItem_spec customScratchState).2 (by decide) (by decide) (by decide)
  have hrej := (addItem_spec (initialState "01/01/2026")).1 (Or.inl rfl)
  refine ⟨?_, hacc.2.1, hacc.2.2, hrej.1, ?_⟩
  · rw [hacc.1]
    rfl
  · rw [hrej.2.2.2.2.2]

/-- Session state holding the validated Acme quotation with its quote number
`"Q1"` recorded as the base quote number. -/
def validState : AppState :=
  { initialState "01/01/2026" with
    quotationData := acmeQuotation
    baseQuoteNo := "Q1" }

/-- C8: a submit on a quotation that passes validation resets the record to
the fresh-session defaults except the quote number, which becomes the value
`getNextQuoteNo` computes from the pre-reset state; the base quote number is
updated to that same value, and the validation errors and the item-entry
scratch state are cleared. -/
theorem handleSubmit_reset (today : String) (s : AppState)
    (hv : validatePasses s.quotationData = true) :
    handleSubmit today s =
      { s with
        quotationData :=
          { freshQuotation today with
            quoteNo := getNextQuoteNo s.baseQuoteNo s.quotationData.quoteNo }
        baseQuoteNo := getNextQuoteNo s.baseQuoteNo s.quotationData.quoteNo
        errors := emptyErrors
        newItem := emptyItem
        customUnit := "" } := by
  simp [handleSubmit, hv, freshQuotation, emptyErrors, emptyItem]

/-- Witness for C8: submitting the Acme quotation (quote number `"Q1"`,
base `"Q1"`) resets the form with quote number `"Q2"`, base `"Q2"` and no
items. -/
theorem handleSubmit_reset_witness :
    (handleSubmit "02/01/2026" validState).quotationData.quoteNo = "Q2" ∧
    (handleSubmit "02/01/2026" validState).baseQuoteNo = "Q2" ∧
    (handleSubmit "02/01/2026" validState).quotationData.items = [] := by
  rw [handleSubmit_reset "02/01/2026" validState (by decide)]
  exact ⟨rfl, rfl, rfl⟩

/-- C6: an upload whose document has no subject metadata, or whose metadata
blob fails to parse, changes nothing but the snackbar — quotation, base
quote number, scratch item, custom unit and error map are untouched — and
the snackbar surfaces an error, including the parser's message in the
malformed case. -/
theorem handleFileUpload_failure_atomic (today : String) (s : AppState)
    (doc : PdfDoc) :
    (doc.subject = none →
      (handleFileUpload today s (some doc)).quotationData = s.quotationData ∧
      (handleFileUpload today s (some doc)).baseQuoteNo = s.baseQuoteNo ∧
      (handleFileUpload today s (some doc)).newItem = s.newItem ∧
      (handleFileUpload today s (some doc)).customUnit = s.customUnit ∧
      (handleFileUpload today s (some doc)).errors = s.errors ∧
      (handleFileUpload today s (some doc)).snackbar =
        { isOpen := true
          message := "No quotation data found in the PDF metadata"
          severity := .error })
  ∧ (∀ msg, doc.subject = some (.malformed msg) →
      (handleFileUpload today s (some doc)).quotationData = s.quotationData ∧
      (handleFileUpload today s (some doc)).baseQuoteNo = s.baseQuoteNo ∧
      (handleFileUpload today s (some doc)).newItem = s.newItem ∧
      (handleFileUpload today s (some doc)).customUnit = s.customUnit ∧
      (handleFileUpload today s (some doc)).errors = s.errors ∧
      (handleFileUpload today s (some doc)).snackbar =
        { isOpen := true
          message := "Error loading PDF: " ++ msg
          severity := .error }) := by
  constructor
  · intro h
    simp [handleFileUpload, h]
  · intro msg h
    simp [handleFileUpload, h, parseMeta]

/-- Witness for C6: uploading a document without subject metadata over the
Acme session raises the missing-metadata error and keeps the quotation. -/
theorem handleFileUpload_failure_atomic_witness :
    (handleFileUpload "02/01/2026" validState
        (some { title := "x", subject := none })).quotationData =
      acmeQuotation ∧
    (handleFileUpload "02/01/2026" validState
        (some { title := "x", subject := some (.malformed "Unexpected token") })).snackbar.message =
      "Error loading PDF: Unexpected token" := by
  constructor
  · have h := (handleFileUpload_failure_atomic "02/01/2026" validState
      { title := "x", subject := none }).1 rfl
    rw [h.1]
    rfl
  · have h := (handleFileUpload_failure_atomic "02/01/2026" validState
      { title := "x", subject := some (.malformed "Unexpected token") }).2
      "Unexpected token" rfl
    rw [h.2.2.2.2.2]
    rfl

/-- C7: a successful import defaults every field that is missing from the
decoded blob to the fresh-session value — empty strings, today's date, `"7"`
validity days, the empty item list and a shown title — decoding an entirely
empty blob therefore yields exactly the fresh-session quotation; and the
base quote number is set to the loaded quote number when one is present and
cleared when none is. -/
theorem handleFileUpload_defaults (today : String) (s : AppState)
    (doc : PdfDoc) (j : Json) (hdoc : doc.subject = some (.wellFormed j)) :
    (getField j "customerName" = none →
      (handleFileUpload today s (some doc)).quotationData.customerName = "")
  ∧ (getField j "address" = none →
      (handleFileUpload today s (some doc)).quotationData.address = "")
  ∧ (getField j "mobile" = none →
      (handleFileUpload today s (some doc)).quotationData.mobile = "")
  ∧ (getField j "quoteNo" = none →
      (handleFileUpload today s (some doc)).quotationData.quoteNo = "")
  ∧ (getField j "date" = none →
      (handleFileUpload today s (some doc)).quotationData.date = today)
  ∧ (getField j "validDays" = none →
      (handleFileUpload today s (some doc)).quotationData.validDays = "7")
  ∧ (getField j "Requirements" = none →
      (handleFileUpload today s (some doc)).quotationData.Requirements = "")
  ∧ (getField j "items" = none →
      (handleFileUpload today s (some doc)).quotationData.items = [])
  ∧ (getField j "preparedBy" = none →
      (handleFileUpload today s (some doc)).quotationData.preparedBy = "")
  ∧ (getField j "salesMan" = none →
      (handleFileUpload today s (some doc)).quotationData.salesMan = "")
  ∧ (getField j "showTitle" = none →
      (handleFileUpload today s (some doc)).quotationData.showTitle = some true)
  ∧ (∀ qn, getField j "quoteNo" = some (.str qn) → qn ≠ "" →
      (handleFileUpload today s (some doc)).baseQuoteNo = qn)
  ∧ (getField j "quoteNo" = none →
      (handleFileUpload today s (some doc)).baseQuoteNo = "")
  ∧ decodeQuotation today (Json.obj []) = freshQuotation today := by
  have hr : handleFileUpload today s (some doc) =
      { s with
        quotationData := decodeQuotation today j
        baseQuoteNo :=
          if (decodeQuotation today j).quoteNo = "" then ""
          else (decodeQuotation today j).quoteNo
        snackbar :=
          { isOpen := true, message := "PDF loaded successfully",
            severity := .success } } := by
    simp [handleFileUpload, hdoc, parseMeta]
  refine ⟨?_, ?_, ?_, ?_, ?_, ?_, ?_, ?_, ?_, ?_, ?_, ?_, ?_, rfl⟩ <;>
      rw [hr]
  · intro h; simp [decodeQuotation, loadStr, h]
  · intro h; simp [decodeQuotation, loadStr, h]
  · intro h; simp [decodeQuotation, loadStr, h]
  · intro h; simp [decodeQuotation, loadStr, h]
  · intro h; simp [decodeQuotation, loadStr, h]
  · intro h; simp [decodeQuotation, loadStr, h]
  · intro h; simp [decodeQuotation, loadStr, h]
  · intro h; simp [decodeQuotation, loadItems, h]
  · intro h; simp [decodeQuotation, loadStr, h]
  · intro h; simp [decodeQuotation, loadStr, h]
  · intro h; simp [decodeQuotation, loadShowTitle, h]
  · intro qn h hne; simp [decodeQuotation, loadStr, h, hne]
  · intro h; simp [decodeQuotation, loadStr, h]

/-- Witness for C7: importing a blob that carries only a customer name
defaults the date to the import-time today, the validity days to `"7"`, the
title flag to shown, and clears the base quote number. -/
theorem handleFileUpload_defaults_witness :
    (handleFileUpload "05/06/2026" validState
        (some { title := "x",
                subject := some (.wellFormed (Json.obj
                  [("customerName", .str "Acme")])) })).quotationData.date =
      "05/06/2026" ∧
    (handleFileUpload "05/06/2026" validState
        (some { title := "x",
                subject := some (.wellFormed (Json.obj
                  [("customerName", .str "Acme")])) })).quotationData.validDays =
      "7" ∧
    (handleFileUpload "05/06/2026" validState
        (some { title := "x",
                subject := some (.wellFormed (Json.obj
                  [("customerName", .str "Acme")])) })).quotationData.showTitle =
      some true ∧
    (handleFileUpload "05/06/2026" validState
        (some { title := "x",
                subject := some (.wellFormed (Json.obj
                  [("customerName", .str "Acme")])) })).baseQuoteNo = "" := by
  have h := handleFileUpload_defaults "05/06/2026" validState
    { title := "x",
      subject := some (.wellFormed (Json.obj [("customerName", .str "Acme")])) }
    (Json.obj [("customerName", .str "Acme")]) rfl
  exact ⟨h.2.2.2.2.1 rfl, h.2.2.2.2.2.1 rfl, h.2.2.2.2.2.2.2.2.2.2.1 rfl,
    h.2.2.2.2.2.2.2.2.2.2.2.2.1 rfl⟩

lemma decodeItems_map_encodeItem (l : List Item) :
    decodeItems (l.map encodeItem) = some l := by
  induction l with
  | nil => rfl
  | cons i t ih =>
    show decodeItems (encodeItem i :: t.map encodeItem) = some (i :: t)
    rw [decodeItems, show decodeItem (encodeItem i) = some i from rfl, ih]

lemma decode_encode (today : String) (q : QuotationData)
    (hd : q.date ≠ "") (hv : q.validDays ≠ "") :
    decodeQuotation today (encodeQuotation q) =
      { q with showTitle := some (q.showTitle.getD true) } := by
  cases hst : q.showTitle with
  | none =>
    simp [decodeQuotation, encodeQuotation, hst, loadStr, getField, lookupField,
      loadItems, loadShowTitle, decodeItems_map_encodeItem]
    refine ⟨?_, ?_, ?_, ?_, ?_, ?_, ?_, ?_, ?_⟩ <;> (try split) <;> simp_all
  | some b =>
    simp [decodeQuotation, encodeQuotation, hst, loadStr, getField, lookupField,
      loadItems, loadShowTitle, decodeItems_map_encodeItem]
    refine ⟨?_, ?_, ?_, ?_, ?_, ?_, ?_, ?_, ?_⟩ <;> (try split) <;> simp_all

/-- C1 (amended): for every quotation on which the visual-document export
succeeds and whose date and validity-days fields are non-empty, the full
record (title-visibility flag included) is embedded in the document's
subject metadata, and importing that same document reproduces every field
identically, with the effective title visibility preserved (a record
exported with the flag unset comes back as explicitly `true`). -/
theorem pdf_roundtrip_amended (today : String) (s : AppState)
    (q : QuotationData) (doc : PdfDoc) (hexp : exportToPDF q = some doc)
    (hd : q.date ≠ "") (hv : q.validDays ≠ "") :
    doc.subject = some (.wellFormed (encodeQuotation (dataToSave q))) ∧
    (handleFileUpload today s (some doc)).quotationData =
      { q with showTitle := some (q.showTitle.getD true) } := by
  unfold exportToPDF at hexp
  by_cases hval : validatePasses q = true
  · rw [if_pos hval] at hexp
    injection hexp with hexp
    subst hexp
    refine ⟨rfl, ?_⟩
    have hr := decode_encode today (dataToSave q)
      (by simpa [dataToSave] using hd) (by simpa [dataToSave] using hv)
    simp only [handleFileUpload, parseMeta]
    rw [hr]
    simp [dataToSave]
  · rw [if_neg hval] at hexp
    exact absurd hexp (by simp)

/-- Witness for C1: the Acme quotation with its single Pipe item survives
the export/import round trip unchanged. -/
theorem pdf_roundtrip_amended_witness :
    (handleFileUpload "12/10/2026" (initialState "01/01/2026")
        (some acmeDoc)).quotationData = acmeQuotation := by
  have h := pdf_roundtrip_amended "12/10/2026" (initialState "01/01/2026")
    acmeQuotation acmeDoc rfl (by decide) (by decide)
  exact h.2

/-- C1 counterexample: a quotation that passes validation with an empty date
field exports successfully, but importing the exported document yields the
import-time date instead of the exported empty date — the round trip is not
the identity on every export-succeeding quotation. -/
theorem pdf_roundtrip_counterexample :
    validatePasses qEmptyDate = true ∧
    qEmptyDate.date = "" ∧
    (exportToPDF qEmptyDate).map
        (fun doc => (handleFileUpload "11/10/2026" (initialState "01/01/2026")
          (some doc)).quotationData.date) = some "11/10/2026" ∧
    ("11/10/2026" : String) ≠ "" :=
  ⟨rfl, rfl, rfl, by decide⟩

end Mannanethu
